import Mathlib

/-
  Verification of the PACER RSS scraper (rss_scrape.py).

  Shallow embedding: feed entries are records of strings plus a Nat
  publication time (the value of time.mktime on published_parsed, whole
  seconds); the regex searches of parse_entry are embedded as scans over
  List Char reproducing the left-to-right, greedy-with-backtracking
  semantics of the Python re patterns; scrape is a pure function from the
  watchlist, a fetch oracle and the watermark read at run start to the
  run's observable effects (fetch attempts, notified entries, the
  arguments of the set_last_time calls, and the outcome).
-/

/-- A feed entry as handed to the scraper by feedparser: the fields the
program reads, with published_parsed already converted by time.mktime
to a whole-second timestamp. -/
structure Entry where
  title : String
  link : String
  summary : String
  description : String
  published : Nat
deriving DecidableEq

/-- A parsed feed: HTTP-like status plus the ordered entry list. -/
structure Feed where
  status : Nat
  entries : List Entry
deriving DecidableEq

/- ----------------------------------------------------------------
   Character-list helpers used by the regex embeddings.
   ---------------------------------------------------------------- -/

/-- The segment of a character list strictly after the last occurrence of
the character t, or none when t does not occur. -/
def afterLast (t : Char) : List Char → Option (List Char)
  | [] => none
  | c :: rest =>
    match afterLast t rest with
    | some r => some r
    | none => if c = t then some rest else none

/-- The segment of a character list strictly after the first occurrence of
the character t, or none when t does not occur. -/
def afterFirst (t : Char) : List Char → Option (List Char)
  | [] => none
  | c :: rest => if c = t then some rest else afterFirst t rest

/-- The segment of a character list strictly before the last occurrence of
the character t, or none when t does not occur. -/
def upToLast (t : Char) : List Char → Option (List Char)
  | [] => none
  | c :: rest =>
    match upToLast t rest with
    | some r => some (c :: r)
    | none => if c = t then some [] else none

/- ----------------------------------------------------------------
   parse_entry and its regex searches.

   Python regex semantics embedded per pattern (leftmost match wins;
   a greedy quantifier over a character class followed by a literal the
   class excludes matches exactly the maximal run):
   ---------------------------------------------------------------- -/

/-- One attempted match of the document-number pattern at the head of the
list: a literal greater-than sign, a nonempty maximal digit run, then a
literal less-than sign; the digit run is the capture. -/
def numMatchAt : List Char → Option String
  | '>' :: rest =>
    match rest.dropWhile Char.isDigit with
    | '<' :: _ =>
      if (rest.takeWhile Char.isDigit).isEmpty then none
      else some (String.mk (rest.takeWhile Char.isDigit))
    | _ => none
  | _ => none

/-- re.search of the document-number pattern: try every start position left
to right. -/
def searchNum : List Char → Option String
  | [] => none
  | c :: rest =>
    match numMatchAt (c :: rest) with
    | some s => some s
    | none => searchNum rest

/-- The literal href attribute opener, including its opening quote. -/
def hrefLit : List Char := ['h', 'r', 'e', 'f', '=', '"']

/-- One attempted match of the link pattern at the head of the list: the
href literal, then a greedy dot-star capture up to a closing quote; the
dot cannot cross a newline, and greediness picks the last closing quote
on the line. -/
def hrefMatchAt (l : List Char) : Option String :=
  if l.take 6 = hrefLit then
    match upToLast '"' ((l.drop 6).takeWhile (fun c => c ≠ '\n')) with
    | some r => some (String.mk r)
    | none => none
  else none

/-- re.search of the link pattern: try every start position left to
right. -/
def searchHref : List Char → Option String
  | [] => none
  | c :: rest =>
    match hrefMatchAt (c :: rest) with
    | some s => some s
    | none => searchHref rest

/-- One attempted match of the court pattern at the head of the list: the
literal ecf followed by a dot, a nonempty maximal lowercase-letter run,
then a literal dot; the letter run is the capture. -/
def courtMatchAt (l : List Char) : Option String :=
  if l.take 4 = ['e', 'c', 'f', '.'] then
    if ((l.drop 4).dropWhile Char.isLower).head? = some '.' then
      if ((l.drop 4).takeWhile Char.isLower).isEmpty then none
      else some (String.mk ((l.drop 4).takeWhile Char.isLower))
    else none
  else none

/-- re.search of the court pattern: try every start position left to
right. -/
def searchCourt : List Char → Option String
  | [] => none
  | c :: rest =>
    match courtMatchAt (c :: rest) with
    | some s => some s
    | none => searchCourt rest

/-- re.search of the anchored description pattern: an opening bracket at
position zero, a nonempty greedy dot-plus capture, then a closing
bracket; greediness picks the last closing bracket on the first line,
and the capture must be nonempty. -/
def descrMatch : List Char → Option String
  | '[' :: rest =>
    match upToLast ']' (rest.takeWhile (fun c => c ≠ '\n')) with
    | some r => if r.isEmpty then none else some (String.mk r)
    | _ => none
  | _ => none

/-- The record parse_entry builds; the source dictionary key case is the
field caseName here, since case is a reserved word in Lean. -/
structure EntryInfo where
  num : String
  link : String
  caseName : String
  court : String
  time : Nat
  description : String
deriving DecidableEq

/-- parse_entry: extract the info out of an entry.  Each regex-derived
field substitutes the sentinel question mark when its search fails; the
title is the source title with its first space-delimited token removed;
the time is copied through. -/
def parse_entry (entry : Entry) : EntryInfo where
  num := (searchNum entry.description.data).getD "?"
  link := (searchHref entry.description.data).getD "?"
  caseName := String.mk ((afterFirst ' ' entry.title.data).getD [])
  court := (searchCourt entry.link.data).getD "?"
  time := entry.published
  description := (descrMatch entry.summary.data).getD "?"

/- ----------------------------------------------------------------
   Watermark and kill-switch stores (file contents modelled as
   Option String: none is the missing/unreadable IOError case).
   ---------------------------------------------------------------- -/

/-- Python file.readline on a whole file content: the first line, keeping
its trailing newline when one is present. -/
def readline (s : String) : String :=
  match afterFirst '\n' s.data with
  | some _ => String.mk (s.data.takeWhile (fun c => c ≠ '\n') ++ ['\n'])
  | none => s

/-- Numeric value of a digit list, most significant first. -/
def natOfDigits (l : List Char) : Nat :=
  l.foldl (fun n c => 10 * n + (c.toNat - 48)) 0

/-- Python int() applied to a string: surrounding whitespace stripped, an
optional sign, then a nonempty digit run; none models ValueError.
(Underscore digit grouping and non-ASCII digits are not modelled; no
claim depends on them.) -/
def pyInt (s : String) : Option Int :=
  match (s.data.dropWhile Char.isWhitespace).reverse.dropWhile Char.isWhitespace
        |>.reverse with
  | [] => none
  | '-' :: ds =>
    if ds ≠ [] ∧ ds.all Char.isDigit then some (-(natOfDigits ds : Int)) else none
  | '+' :: ds =>
    if ds ≠ [] ∧ ds.all Char.isDigit then some (natOfDigits ds : Int) else none
  | ds =>
    if ds.all Char.isDigit then some (natOfDigits ds : Int) else none

/-- kill_switch_set: true when the kill-switch file exists and its first
line is longer than two characters; an IOError (missing/unreadable file,
the none case) yields false. -/
def kill_switch_set (file : Option String) : Bool :=
  match file with
  | none => false
  | some contents => 2 < (readline contents).length

/-- set_kill_switch writes this marker content. -/
def killSwitchContent : String := "script disabled\n"

/-- get_last_time: the integer on the first line of the watermark file; an
IOError (missing file, the none case) yields 0.  A present but
unparsable file raises ValueError, which the source does not catch;
that path is the error case. -/
def get_last_time (file : Option String) : Except String Int :=
  match file with
  | none => Except.ok 0
  | some contents =>
    match pyInt (readline contents) with
    | some n => Except.ok n
    | none => Except.error "ValueError"

/-- set_last_time: the watermark file content written for a timestamp. -/
def set_last_time (t : Nat) : String := toString t ++ "\n"

/- ----------------------------------------------------------------
   get_feed and scrape.
   ---------------------------------------------------------------- -/

/-- The per-court feed URL built by scrape. -/
def feedUrl (court : String) : String :=
  "https://ecf." ++ court ++ ".uscourts.gov/cgi-bin/rss_outside.pl"

/-- The message of the exception get_feed raises on a bad status;
feedparser reports the fetched URL as the href of the feed. -/
def feedErrorMsg (url : String) (status : Nat) : String :=
  "Getting PACER RSS feed " ++ url ++ " failed with code " ++
    toString status ++ "."

/-- get_feed: parse the feed at a URL through the fetch oracle and fail
when the status is not 200. -/
def get_feed (fetch : String → Feed) (url : String) : Except String Feed :=
  let feed := fetch url
  if feed.status ≠ 200 then Except.error (feedErrorMsg url feed.status)
  else Except.ok feed

/-- The dict comprehension of scrape: fetch one feed per court, left to
right, stopping at the first failure.  The first component logs the
courts whose fetch was attempted; the second is the built dictionary or
the propagated exception. -/
def fetchFeeds (fetch : String → Feed) :
    List String → List String × Except String (List (String × Feed))
  | [] => ([], Except.ok [])
  | c :: cs =>
    match get_feed fetch (feedUrl c) with
    | Except.error e => ([c], Except.error e)
    | Except.ok f =>
      let r := fetchFeeds fetch cs
      (c :: r.1, r.2.map (fun rest => (c, f) :: rest))

/-- Python dictionary lookup cases[court] on the watchlist association
list (dict keys are unique; the first binding wins). -/
def lookupCases (cases : List (String × List String)) (c : String) : List String :=
  match cases.find? (fun p => p.1 == c) with
  | some p => p.2
  | none => []

/-- The case identifier scrape derives from a link: the segment after the
last question mark, or the whole link when there is none (the Python
split on the question mark, last element). -/
def caseId (link : String) : String :=
  String.mk ((afterLast '?' link.data).getD link.data)

/-- The inner entry loop of scrape for one court: walk the entries in feed
order; stop at the first entry published at or before last_seen; notify
an entry whose case identifier is on the watchlist and immediately
record a set_last_time of its publication time.  Returns the notified
entries and the watermark writes, in order. -/
def scrapeCourt (watch : List String) (last_seen : Nat) :
    List Entry → List Entry × List Nat
  | [] => ([], [])
  | entry :: rest =>
    if entry.published ≤ last_seen then ([], [])
    else if watch.contains (caseId entry.link) then
      let r := scrapeCourt watch last_seen rest
      (entry :: r.1, entry.published :: r.2)
    else scrapeCourt watch last_seen rest

/-- The outer court loop of scrape, over the fetched feeds in order. -/
def runCourts (cases : List (String × List String)) (last_seen : Nat) :
    List (String × Feed) → List Entry × List Nat
  | [] => ([], [])
  | (c, f) :: rest =>
    let r1 := scrapeCourt (lookupCases cases c) last_seen f.entries
    let r2 := runCourts cases last_seen rest
    (r1.1 ++ r2.1, r1.2 ++ r2.2)

/-- The observable effects of one scrape run: the courts whose feed fetch
was attempted, the entries handed to the notifier, the arguments of the
set_last_time calls, all in order, and the outcome. -/
structure RunResult where
  attempts : List String
  notified : List Entry
  writes : List Nat
  result : Except String Unit

/-- scrape: fetch all feeds (failing the run on any bad status, before the
watermark is read or any entry is processed), then walk each court's
entries against the watermark last_seen read at run start.  The
notifier swallows delivery failures internally, so notification is
modelled as the list of entries handed to it. -/
def scrape (cases : List (String × List String)) (fetch : String → Feed)
    (last_seen : Nat) : RunResult :=
  match fetchFeeds fetch (cases.map Prod.fst) with
  | (att, Except.error e) =>
    { attempts := att, notified := [], writes := [], result := Except.error e }
  | (att, Except.ok feeds) =>
    let r := runCourts cases last_seen feeds
    { attempts := att, notified := r.1, writes := r.2, result := Except.ok () }

/-- The watermark persisted when a run ends: the last write of the run, or
the prior persisted value when the run wrote nothing. -/
def finalWm (wm : Nat) (writes : List Nat) : Nat := writes.getLastD wm

/-- The watermark value persisted at the moment the notification at index
i fires: the last of the earlier writes, or the run-start value. -/
def currentWm (wm : Nat) (writes : List Nat) (i : Nat) : Nat :=
  (writes.take i).getLastD wm

/-- Bool scan: does pat occur as a contiguous segment of the list. -/
def hasSeg (pat : List Char) : List Char → Bool
  | [] => pat.isEmpty
  | c :: rest => (List.take pat.length (c :: rest) == pat) || hasSeg pat rest

/- ----------------------------------------------------------------
   Helper lemmas.
   ---------------------------------------------------------------- -/

theorem fetchFeeds_ok_eq (fetch : String → Feed) :
    ∀ (cs : List String) (feeds : List (String × Feed)),
      (fetchFeeds fetch cs).2 = Except.ok feeds →
      feeds = cs.map (fun c => (c, fetch (feedUrl c)))
  | [], feeds, h => by
    simp [fetchFeeds] at h
    simp [h]
  | c :: cs, feeds, h => by
    simp only [fetchFeeds, get_feed] at h
    by_cases hs : (fetch (feedUrl c)).status ≠ 200
    · simp [hs] at h
    · simp only [hs, if_false, ite_false] at h
      cases hrest : (fetchFeeds fetch cs).2 with
      | error e => rw [hrest] at h; simp [Except.map] at h
      | ok rest =>
        rw [hrest] at h
        simp [Except.map] at h
        rw [← h]
        simp [List.map]
        exact fetchFeeds_ok_eq fetch cs rest hrest

theorem fetchFeeds_error_of_bad (fetch : String → Feed) :
    ∀ cs : List String,
      (∃ c ∈ cs, (fetch (feedUrl c)).status ≠ 200) →
      ∃ c ∈ cs, (fetch (feedUrl c)).status ≠ 200 ∧
        (fetchFeeds fetch cs).2 =
          Except.error (feedErrorMsg (feedUrl c) (fetch (feedUrl c)).status)
  | [], h => by simp at h
  | c :: cs, h => by
    by_cases hs : (fetch (feedUrl c)).status ≠ 200
    · exact ⟨c, by simp, hs, by simp [fetchFeeds, get_feed, hs]⟩
    · have hbad : ∃ c ∈ cs, (fetch (feedUrl c)).status ≠ 200 := by
        rcases h with ⟨c', hc', hbad'⟩
        rcases List.mem_cons.mp hc' with rfl | hmem
        · exact absurd hbad' hs
        · exact ⟨c', hmem, hbad'⟩
      rcases fetchFeeds_error_of_bad fetch cs hbad with ⟨c', hc', hbad', herr⟩
      refine ⟨c', List.mem_cons_of_mem _ hc', hbad', ?_⟩
      simp only [fetchFeeds, get_feed, hs, if_false, ite_false]
      rw [herr]
      rfl

theorem fetchFeeds_attempts_sublist (fetch : String → Feed) :
    ∀ cs : List String, List.Sublist (fetchFeeds fetch cs).1 cs
  | [] => by simp [fetchFeeds]
  | c :: cs => by
    simp only [fetchFeeds]
    cases get_feed fetch (feedUrl c) with
    | error e => exact (List.nil_sublist cs).cons₂ c
    | ok f => exact (fetchFeeds_attempts_sublist fetch cs).cons₂ c

theorem scrape_error_parts (cases : List (String × List String))
    (fetch : String → Feed) (wm : Nat) (e : String)
    (h : (fetchFeeds fetch (cases.map Prod.fst)).2 = Except.error e) :
    scrape cases fetch wm =
      { attempts := (fetchFeeds fetch (cases.map Prod.fst)).1,
        notified := [], writes := [], result := Except.error e } := by
  rcases hfe : fetchFeeds fetch (cases.map Prod.fst) with ⟨att, res⟩
  rw [hfe] at h
  simp only at h
  subst h
  simp [scrape, hfe]

theorem scrape_ok_parts (cases : List (String × List String))
    (fetch : String → Feed) (wm : Nat) (feeds : List (String × Feed))
    (h : (fetchFeeds fetch (cases.map Prod.fst)).2 = Except.ok feeds) :
    scrape cases fetch wm =
      { attempts := (fetchFeeds fetch (cases.map Prod.fst)).1,
        notified := (runCourts cases wm feeds).1,
        writes := (runCourts cases wm feeds).2,
        result := Except.ok () } := by
  rcases hfe : fetchFeeds fetch (cases.map Prod.fst) with ⟨att, res⟩
  rw [hfe] at h
  simp only at h
  subst h
  simp [scrape, hfe]

theorem scrapeCourt_writes_eq (watch : List String) (ls : Nat) :
    ∀ l : List Entry,
      (scrapeCourt watch ls l).2 = (scrapeCourt watch ls l).1.map (fun e => e.published)
  | [] => by simp [scrapeCourt]
  | entry :: rest => by
    simp only [scrapeCourt]
    by_cases h1 : entry.published ≤ ls
    · simp [h1]
    · by_cases h2 : caseId entry.link ∈ watch
      · simp [h1, h2, scrapeCourt_writes_eq watch ls rest]
      · simp [h1, h2, scrapeCourt_writes_eq watch ls rest]

theorem scrapeCourt_notified_gt (watch : List String) (ls : Nat) :
    ∀ l : List Entry, ∀ e ∈ (scrapeCourt watch ls l).1, ls < e.published
  | [] => by simp [scrapeCourt]
  | entry :: rest => by
    intro e he
    simp only [scrapeCourt] at he
    by_cases h1 : entry.published ≤ ls
    · simp [h1] at he
    · by_cases h2 : watch.contains (caseId entry.link)
      · simp only [h1, if_false, ite_false, h2, if_true, ite_true,
          List.mem_cons] at he
        rcases he with rfl | he
        · exact Nat.lt_of_not_le h1
        · exact scrapeCourt_notified_gt watch ls rest e he
      · simp only [h1, if_false, ite_false, h2, ite_false] at he
        exact scrapeCourt_notified_gt watch ls rest e he

theorem scrapeCourt_all_old (watch : List String) (ls : Nat) :
    ∀ l : List Entry, (∀ e ∈ l, e.published ≤ ls) →
      scrapeCourt watch ls l = ([], [])
  | [], _ => rfl
  | entry :: rest, h => by
    have h1 : entry.published ≤ ls := h entry (by simp)
    simp [scrapeCourt, h1]

theorem scrapeCourt_fst_filter (watch : List String) (ls : Nat) :
    ∀ l : List Entry,
      List.Pairwise (fun a b => b.published ≤ a.published) l →
      (scrapeCourt watch ls l).1 =
        l.filter (fun e => decide (ls < e.published) && watch.contains (caseId e.link))
  | [], _ => rfl
  | entry :: rest, hp => by
    rcases List.pairwise_cons.mp hp with ⟨hrel, htail⟩
    simp only [scrapeCourt, List.filter_cons]
    by_cases h1 : entry.published ≤ ls
    · have hnot : ¬ ls < entry.published := Nat.not_lt.mpr h1
      simp only [h1, if_true, ite_true, hnot, decide_False, Bool.false_and,
        if_false, ite_false]
      rw [if_neg Bool.false_ne_true]
      symm
      rw [List.filter_eq_nil_iff]
      intro e he
      have : e.published ≤ ls := Nat.le_trans (hrel e he) h1
      simp [Nat.not_lt.mpr this]
    · have hlt : ls < entry.published := Nat.lt_of_not_le h1
      by_cases h2 : caseId entry.link ∈ watch
      · simp [h1, h2, hlt, scrapeCourt_fst_filter watch ls rest htail]
      · simp [h1, h2, hlt, scrapeCourt_fst_filter watch ls rest htail]

theorem runCourts_notified_append (cases : List (String × List String)) (ls : Nat) :
    ∀ pairs : List (String × Feed),
      (runCourts cases ls pairs).1 =
        pairs.flatMap (fun p => (scrapeCourt (lookupCases cases p.1) ls p.2.entries).1)
  | [] => by simp [runCourts]
  | (c, f) :: rest => by
    simp [runCourts, runCourts_notified_append cases ls rest]

theorem runCourts_writes_eq (cases : List (String × List String)) (ls : Nat) :
    ∀ pairs : List (String × Feed),
      (runCourts cases ls pairs).2 =
        (runCourts cases ls pairs).1.map (fun e => e.published)
  | [] => by simp [runCourts]
  | (c, f) :: rest => by
    simp [runCourts, scrapeCourt_writes_eq, runCourts_writes_eq cases ls rest]

theorem runCourts_notified_gt (cases : List (String × List String)) (ls : Nat) :
    ∀ pairs : List (String × Feed),
      ∀ e ∈ (runCourts cases ls pairs).1, ls < e.published := by
  intro pairs e he
  rw [runCourts_notified_append] at he
  rcases List.mem_flatMap.mp he with ⟨p, _, hmem⟩
  exact scrapeCourt_notified_gt _ ls _ e hmem

theorem runCourts_all_old (cases : List (String × List String)) (ls : Nat) :
    ∀ pairs : List (String × Feed),
      (∀ p ∈ pairs, ∀ e ∈ p.2.entries, e.published ≤ ls) →
      runCourts cases ls pairs = ([], [])
  | [], _ => rfl
  | (c, f) :: rest, h => by
    have h1 : scrapeCourt (lookupCases cases c) ls f.entries = ([], []) :=
      scrapeCourt_all_old _ ls _ (h (c, f) (by simp))
    have h2 : runCourts cases ls rest = ([], []) :=
      runCourts_all_old cases ls rest (fun p hp => h p (List.mem_cons_of_mem _ hp))
    simp [runCourts, h1, h2]

theorem getLastD_ge (wm : Nat) :
    ∀ (ws : List Nat) (d : Nat), wm ≤ d → (∀ t ∈ ws, wm ≤ t) →
      wm ≤ ws.getLastD d
  | [], d, hd, _ => hd
  | x :: xs, d, _, h => by
    rw [List.getLastD_cons]
    exact getLastD_ge wm xs x (h x (by simp))
      (fun t ht => h t (List.mem_cons_of_mem _ ht))

theorem flatMap_congr_mem {α β : Type} :
    ∀ (l : List α) (f g : α → List β), (∀ a ∈ l, f a = g a) →
      l.flatMap f = l.flatMap g
  | [], _, _, _ => rfl
  | a :: l, f, g, h => by
    simp only [List.flatMap_cons]
    rw [h a (by simp), flatMap_congr_mem l f g (fun x hx => h x (List.mem_cons_of_mem _ hx))]

theorem searchHref_none_of_no_seg :
    ∀ l : List Char, hasSeg hrefLit l = false → searchHref l = none
  | [], _ => rfl
  | c :: rest, h => by
    simp only [hasSeg, Bool.or_eq_false_iff] at h
    rcases h with ⟨hhead, htail⟩
    have hne : List.take 6 (c :: rest) ≠ hrefLit := by
      intro he
      rw [show (6 : Nat) = hrefLit.length from rfl] at he
      simp [he] at hhead
    simp only [searchHref, hrefMatchAt, hne, if_false, ite_false]
    exact searchHref_none_of_no_seg rest htail

theorem takeWhile_all {p : Char → Bool} :
    ∀ l : List Char, ∀ x ∈ l.takeWhile p, p x := by
  intro l x hx
  exact List.mem_takeWhile_imp hx

theorem courtMatchAt_some_decomp (l : List Char) (s : String)
    (h : courtMatchAt l = some s) :
    ∃ r : List Char, s = String.mk r ∧ r ≠ [] ∧ (∀ ch ∈ r, ch.isLower) ∧
      ∃ post, ['e', 'c', 'f', '.'] ++ r ++ '.' :: post = l := by
  unfold courtMatchAt at h
  by_cases ht : l.take 4 = ['e', 'c', 'f', '.']
  · rw [if_pos ht] at h
    by_cases hdot : ((l.drop 4).dropWhile Char.isLower).head? = some '.'
    · rw [if_pos hdot] at h
      by_cases hrun : ((l.drop 4).takeWhile Char.isLower).isEmpty
      · rw [if_pos hrun] at h; exact absurd h (by simp)
      · rw [if_neg hrun] at h
        cases hd : (l.drop 4).dropWhile Char.isLower with
        | nil => rw [hd] at hdot; exact absurd hdot (by simp)
        | cons d ds =>
          rw [hd] at hdot
          have hdeq : d = '.' := by simpa using hdot
          subst hdeq
          refine ⟨(l.drop 4).takeWhile Char.isLower, (Option.some.inj h).symm,
            fun hnil => hrun (by simp [hnil]), takeWhile_all _, ds, ?_⟩
          have hsplit : (l.drop 4).takeWhile Char.isLower ++ '.' :: ds = l.drop 4 := by
            rw [← hd]
            exact List.takeWhile_append_dropWhile Char.isLower (l.drop 4)
          calc ['e', 'c', 'f', '.'] ++ (l.drop 4).takeWhile Char.isLower ++ '.' :: ds
              = ['e', 'c', 'f', '.'] ++ ((l.drop 4).takeWhile Char.isLower ++ '.' :: ds) := by
                rw [List.append_assoc]
            _ = ['e', 'c', 'f', '.'] ++ l.drop 4 := by rw [hsplit]
            _ = l.take 4 ++ l.drop 4 := by rw [ht]
            _ = l := List.take_append_drop 4 l
    · rw [if_neg hdot] at h; exact absurd h (by simp)
  · rw [if_neg ht] at h; exact absurd h (by simp)

theorem searchCourt_some_decomp :
    ∀ (l : List Char) (s : String), searchCourt l = some s →
      ∃ r : List Char, s = String.mk r ∧ r ≠ [] ∧ (∀ ch ∈ r, ch.isLower) ∧
        ∃ pre post, pre ++ (['e', 'c', 'f', '.'] ++ r ++ '.' :: post) = l
  | [], s, h => by simp [searchCourt] at h
  | c :: rest, s, h => by
    rw [searchCourt] at h
    cases hm : courtMatchAt (c :: rest) with
    | some s' =>
      rw [hm] at h
      have hss : s' = s := by simpa using h
      subst hss
      rcases courtMatchAt_some_decomp _ _ hm with ⟨r, hs, hne, hlow, post, hdec⟩
      exact ⟨r, hs, hne, hlow, [], post, by simpa using hdec⟩
    | none =>
      rw [hm] at h
      simp only at h
      rcases searchCourt_some_decomp rest s h with ⟨r, hs, hne, hlow, pre, post, hdec⟩
      exact ⟨r, hs, hne, hlow, c :: pre, post, by rw [← hdec]; simp⟩

theorem scrape_attempts_eq (cases : List (String × List String))
    (fetch : String → Feed) (wm : Nat) :
    (scrape cases fetch wm).attempts = (fetchFeeds fetch (cases.map Prod.fst)).1 := by
  cases hres : (fetchFeeds fetch (cases.map Prod.fst)).2 with
  | error e => rw [scrape_error_parts cases fetch wm e hres]
  | ok feeds => rw [scrape_ok_parts cases fetch wm feeds hres]

theorem scrape_mem_notified_gt (cases : List (String × List String))
    (fetch : String → Feed) (wm : Nat) (e : Entry)
    (h : e ∈ (scrape cases fetch wm).notified) : wm < e.published := by
  cases hres : (fetchFeeds fetch (cases.map Prod.fst)).2 with
  | error er =>
    rw [scrape_error_parts cases fetch wm er hres] at h
    simp at h
  | ok feeds =>
    rw [scrape_ok_parts cases fetch wm feeds hres] at h
    exact runCourts_notified_gt cases wm feeds e h

theorem scrape_writes_map (cases : List (String × List String))
    (fetch : String → Feed) (wm : Nat) :
    (scrape cases fetch wm).writes =
      (scrape cases fetch wm).notified.map (fun e => e.published) := by
  cases hres : (fetchFeeds fetch (cases.map Prod.fst)).2 with
  | error er => rw [scrape_error_parts cases fetch wm er hres]; rfl
  | ok feeds =>
    rw [scrape_ok_parts cases fetch wm feeds hres]
    exact runCourts_writes_eq cases wm feeds

theorem scrape_mem_writes_gt (cases : List (String × List String))
    (fetch : String → Feed) (wm : Nat) (t : Nat)
    (h : t ∈ (scrape cases fetch wm).writes) : wm < t := by
  rw [scrape_writes_map] at h
  rcases List.mem_map.mp h with ⟨e, he, rfl⟩
  exact scrape_mem_notified_gt cases fetch wm e he

theorem flatMap_map {α β γ : Type} (f : α → β) (g : β → List γ) :
    ∀ l : List α, (l.map f).flatMap g = l.flatMap (fun a => g (f a))
  | [] => rfl
  | a :: l => by simp [flatMap_map f g l]

/- ----------------------------------------------------------------
   Concrete scenarios used by witnesses and counterexamples.
   ---------------------------------------------------------------- -/

/-- The scenario of the testable-properties section of the design: one
watched case in ilnd, one matching entry published at time 1000. -/
def specEntry : Entry where
  title := "1:13-cv-01569 Duffy v. Godfread et al"
  link := "https://ecf.ilnd.uscourts.gov/cgi-bin/DktRpt.pl?280638"
  summary := "[Complaint]"
  description := "docs <a href=\"https://ecf.ilnd.uscourts.gov/doc1/067\">1</a>"
  published := 1000

def specFeed : Feed where
  status := 200
  entries := [specEntry]

def specFetch : String → Feed := fun _ => specFeed

def specCases : List (String × List String) := [("ilnd", ["280638"])]

/-- A single court whose newest-first feed holds two watched entries, the
newer published at 100 and the older at 50, against a start watermark
of 0: both match, so the run writes 100 and then 50. -/
def exEntryHi : Entry where
  title := "1:13-cv-00001 A v. B"
  link := "https://ecf.ilnd.uscourts.gov/doc1/a?101"
  summary := "[x]"
  description := "d"
  published := 100

def exEntryLo : Entry where
  title := "1:13-cv-00002 C v. D"
  link := "https://ecf.ilnd.uscourts.gov/doc1/b?102"
  summary := "[y]"
  description := "d"
  published := 50

def exFeed : Feed where
  status := 200
  entries := [exEntryHi, exEntryLo]

def exFetch : String → Feed := fun _ => exFeed

def exCases : List (String × List String) := [("ilnd", ["101", "102"])]

/-- An entry none of whose extraction patterns occur. -/
def plainEntry : Entry where
  title := "notitle"
  link := "http://example.org/a"
  summary := "plain text"
  description := "no markup here"
  published := 7

/-- An entry whose link has a digit inside the segment between ecf. and
the next dot. -/
def digitCourtEntry : Entry where
  title := "t u"
  link := "https://ecf.il2nd.uscourts.gov/doc1/1"
  summary := "s"
  description := "d"
  published := 3

/-- A watchlist whose only court always answers with a 404 feed. -/
def badCases : List (String × List String) := [("cacd", ["543744"])]

def badFetch : String → Feed := fun _ => { status := 404, entries := [] }

/-- The court field exactly as the claim words it: the substring of the
link lying between the text ecf. and the next dot, scanning left to
right, or none when no such substring exists.  (Stated from the claim
for comparison with searchCourt, the embedding of the source regex.) -/
def courtBetweenAt (l : List Char) : Option String :=
  if l.take 4 = ['e', 'c', 'f', '.'] then
    if ((l.drop 4).dropWhile (fun ch => ch ≠ '.')).head? = some '.' then
      some (String.mk ((l.drop 4).takeWhile (fun ch => ch ≠ '.')))
    else none
  else none

def courtBetween : List Char → Option String
  | [] => none
  | c :: rest =>
    match courtBetweenAt (c :: rest) with
    | some s => some s
    | none => courtBetween rest

/- ----------------------------------------------------------------
   Claim theorems.
   ---------------------------------------------------------------- -/

/-- C9: Persistence absence is not an error: get_last_time returns the
epoch-zero sentinel 0 when the watermark storage is missing or
unreadable (the IOError case, modelled as none), and kill_switch_set
returns false when the kill-switch marker is absent or unreadable;
neither raises there (both return normally). -/
theorem persistence_absence_not_error :
    get_last_time none = Except.ok 0 ∧ kill_switch_set none = false :=
  ⟨rfl, rfl⟩

/-- C6: Extraction totality and sentinel fallback: parse_entry is a total
function on entries carrying all five fields; time is copied through
with no fallback, and each of the num, link, court and description
fields independently falls back to the sentinel when its pattern does
not occur; in particular a description containing no href attribute
opener yields the sentinel link. -/
theorem parse_entry_total_sentinel_fallback (e : Entry) :
    (parse_entry e).time = e.published ∧
    (searchNum e.description.data = none → (parse_entry e).num = "?") ∧
    (searchHref e.description.data = none → (parse_entry e).link = "?") ∧
    (hasSeg hrefLit e.description.data = false → (parse_entry e).link = "?") ∧
    (searchCourt e.link.data = none → (parse_entry e).court = "?") ∧
    (descrMatch e.summary.data = none → (parse_entry e).description = "?") := by
  refine ⟨rfl, fun h => ?_, fun h => ?_, fun h => ?_, fun h => ?_, fun h => ?_⟩
  · simp [parse_entry, h]
  · simp [parse_entry, h]
  · simp [parse_entry, searchHref_none_of_no_seg _ h]
  · simp [parse_entry, h]
  · simp [parse_entry, h]

/-- C6 witness: the fallbacks at a concrete pattern-free entry. -/
theorem parse_entry_total_sentinel_fallback_witness :
    (parse_entry plainEntry).time = 7 ∧ (parse_entry plainEntry).num = "?" ∧
    (parse_entry plainEntry).link = "?" ∧ (parse_entry plainEntry).court = "?" ∧
    (parse_entry plainEntry).description = "?" :=
  have h := parse_entry_total_sentinel_fallback plainEntry
  ⟨h.1, h.2.1 (by decide), h.2.2.2.1 (by decide), h.2.2.2.2.1 (by decide),
    h.2.2.2.2.2 (by decide)⟩

/-- C7 counterexample: on a link whose segment between ecf. and the next
dot is il2nd (it contains a digit), the claim says the court field is
that substring, but parse_entry yields the sentinel, because the source
regex admits only lowercase letters between the two dots. -/
theorem parse_entry_court_not_between_substring :
    courtBetween digitCourtEntry.link.data = some "il2nd" ∧
    (parse_entry digitCourtEntry).court = "?" ∧
    (parse_entry digitCourtEntry).court ≠ "il2nd" := by
  refine ⟨by decide, by decide, by decide⟩

/-- C7 amended: the court field is the sentinel exactly when the link has
no occurrence of ecf. followed by a nonempty lowercase-letter run and a
dot; otherwise it is such a nonempty all-lowercase run r, with the text
ecf. then r then a dot occurring contiguously in the link (the dot
after r being the next dot, as r contains none). -/
theorem parse_entry_court_characterisation (e : Entry) :
    (searchCourt e.link.data = none ∧ (parse_entry e).court = "?") ∨
    (∃ r : List Char, searchCourt e.link.data = some (String.mk r) ∧
      (parse_entry e).court = String.mk r ∧ r ≠ [] ∧ (∀ ch ∈ r, ch.isLower) ∧
      ∃ pre post, pre ++ (['e', 'c', 'f', '.'] ++ r ++ '.' :: post) = e.link.data) := by
  cases h : searchCourt e.link.data with
  | none => exact Or.inl ⟨rfl, by simp [parse_entry, h]⟩
  | some s =>
    rcases searchCourt_some_decomp _ _ h with ⟨r, hs, hne, hlow, pre, post, hdec⟩
    subst hs
    exact Or.inr ⟨r, rfl, by simp [parse_entry, h], hne, hlow, pre, post, hdec⟩

/-- C1: Idempotence under no new entries: with the feed set unchanged and
no entry published after the watermark persisted at the end of the
first run, a second run of scrape hands nothing to the notifier. -/
theorem scrape_idempotent_no_new_entries
    (cases : List (String × List String)) (fetch : String → Feed) (wm : Nat)
    (h : ∀ c ∈ cases.map Prod.fst, ∀ e ∈ (fetch (feedUrl c)).entries,
      e.published ≤ finalWm wm (scrape cases fetch wm).writes) :
    (scrape cases fetch (finalWm wm (scrape cases fetch wm).writes)).notified = [] := by
  cases hres : (fetchFeeds fetch (cases.map Prod.fst)).2 with
  | error e =>
    rw [scrape_error_parts cases fetch _ e hres]
  | ok feeds =>
    rw [scrape_ok_parts cases fetch _ feeds hres]
    have hfeeds := fetchFeeds_ok_eq fetch _ feeds hres
    subst hfeeds
    have hall : runCourts cases (finalWm wm (scrape cases fetch wm).writes)
        ((cases.map Prod.fst).map (fun c => (c, fetch (feedUrl c)))) = ([], []) := by
      apply runCourts_all_old
      intro p hp e he
      rcases List.mem_map.mp hp with ⟨c, hc, rfl⟩
      exact h c hc e he
    rw [hall]

/-- C1 witness: the run-twice scenario of the design document, feed
unchanged, watermark 1000 after the first run. -/
theorem scrape_idempotent_no_new_entries_witness :
    (∀ c ∈ specCases.map Prod.fst, ∀ e ∈ (specFetch (feedUrl c)).entries,
      e.published ≤ finalWm 0 (scrape specCases specFetch 0).writes) ∧
    (scrape specCases specFetch
      (finalWm 0 (scrape specCases specFetch 0).writes)).notified = [] :=
  ⟨by decide, scrape_idempotent_no_new_entries specCases specFetch 0 (by decide)⟩

/-- C2 counterexample: against watermark 0, a newest-first feed with two
watched entries published at 100 then 50.  The second notification is
for the entry published at 50, while the watermark persisted at that
moment is 100, so an entry at or under the current persisted watermark
is notified; moreover the entry published at 100 is notified again in
the next run (started at the final persisted watermark 50) even though
the persisted watermark had advanced to 100. -/
theorem scrape_notifies_under_current_watermark :
    (scrape exCases exFetch 0).notified = [exEntryHi, exEntryLo] ∧
    (scrape exCases exFetch 0).writes = [100, 50] ∧
    currentWm 0 (scrape exCases exFetch 0).writes 1 = 100 ∧
    ((scrape exCases exFetch 0).notified.getD 1 exEntryHi).published ≤
      currentWm 0 (scrape exCases exFetch 0).writes 1 ∧
    100 ∈ (scrape exCases exFetch 0).writes ∧
    exEntryHi.published ≤ 100 ∧
    exEntryHi ∈ (scrape exCases exFetch
      (finalWm 0 (scrape exCases exFetch 0).writes)).notified := by
  refine ⟨by decide, by decide, by decide, by decide, by decide, by decide, by decide⟩

/-- C2 amended: scrape never invokes the notifier for an entry whose
publication time is at or under the watermark read at the start of that
run; hence an entry-time pair is not re-notified in a later run as long
as the watermark persisted at that later run's start is still at or
above the pair's time. -/
theorem scrape_notified_above_start_watermark
    (cases : List (String × List String)) (fetch : String → Feed) (wm : Nat)
    (e : Entry) (h : e ∈ (scrape cases fetch wm).notified) : wm < e.published :=
  scrape_mem_notified_gt cases fetch wm e h

/-- C2 amended witness. -/
theorem scrape_notified_above_start_watermark_witness :
    specEntry ∈ (scrape specCases specFetch 0).notified ∧ 0 < specEntry.published :=
  ⟨by decide, scrape_notified_above_start_watermark specCases specFetch 0 specEntry
    (by decide)⟩

/-- C3 counterexample: in the two-entry run the sequence of watermark
writes is 100 then 50, so a set_last_time call stores a value under the
previously persisted one: the watermark is not non-decreasing over the
within-run write sequence. -/
theorem scrape_writes_not_monotonic :
    (scrape exCases exFetch 0).writes = [100, 50] ∧
    ¬ (∀ i, i < (scrape exCases exFetch 0).writes.length →
        currentWm 0 (scrape exCases exFetch 0).writes i ≤
          (scrape exCases exFetch 0).writes.getD i 0) := by
  refine ⟨by decide, by decide⟩

/-- C3 amended: every set_last_time call of a run stores a value strictly
greater than the watermark read at that run's start, so the value
persisted when the run ends is at or above the value persisted when it
began: across runs the watermark is non-decreasing, though within a run
the successive writes need not be. -/
theorem scrape_watermark_nondecreasing_across_runs
    (cases : List (String × List String)) (fetch : String → Feed) (wm : Nat) :
    (∀ t ∈ (scrape cases fetch wm).writes, wm < t) ∧
    wm ≤ finalWm wm (scrape cases fetch wm).writes :=
  ⟨fun t ht => scrape_mem_writes_gt cases fetch wm t ht,
    getLastD_ge wm _ wm (Nat.le_refl wm)
      (fun t ht => Nat.le_of_lt (scrape_mem_writes_gt cases fetch wm t ht))⟩

/-- C3 amended witness. -/
theorem scrape_watermark_nondecreasing_across_runs_witness :
    1000 ∈ (scrape specCases specFetch 0).writes ∧ 0 < 1000 :=
  ⟨by decide,
    (scrape_watermark_nondecreasing_across_runs specCases specFetch 0).1 1000 (by decide)⟩

/-- C4 counterexample: the two-entry run completes without error and
notifies the entry published at 100, yet the watermark persisted at the
end of the run is 50, under that notified entry's publication time. -/
theorem scrape_final_watermark_below_notified :
    (scrape exCases exFetch 0).result = Except.ok () ∧
    exEntryHi ∈ (scrape exCases exFetch 0).notified ∧
    finalWm 0 (scrape exCases exFetch 0).writes = 50 ∧
    ¬ exEntryHi.published ≤ finalWm 0 (scrape exCases exFetch 0).writes := by
  refine ⟨rfl, by decide, by decide, by decide⟩

/-- C4 amended: after every run the persisted watermark is at or above the
run-start watermark, and equals the publication time of the last entry
handed to the notifier (the run-start value when nothing was notified);
it need not dominate the earlier-notified entries' times. -/
theorem scrape_final_watermark_eq_last_notified
    (cases : List (String × List String)) (fetch : String → Feed) (wm : Nat) :
    wm ≤ finalWm wm (scrape cases fetch wm).writes ∧
    finalWm wm (scrape cases fetch wm).writes =
      ((scrape cases fetch wm).notified.map (fun e => e.published)).getLastD wm :=
  ⟨getLastD_ge wm _ wm (Nat.le_refl wm)
      (fun t ht => Nat.le_of_lt (scrape_mem_writes_gt cases fetch wm t ht)),
    by rw [finalWm, scrape_writes_map]⟩

theorem court_in_feedErrorMsg (c : String) (st : Nat) :
    ∃ s t, s ++ c.data ++ t = (feedErrorMsg (feedUrl c) st).data := by
  refine ⟨("Getting PACER RSS feed https://ecf." : String).data,
    ((".uscourts.gov/cgi-bin/rss_outside.pl failed with code " : String) ++
      toString st ++ ".").data, ?_⟩
  simp only [feedErrorMsg, feedUrl, String.data_append, List.append_assoc,
    List.cons_append, List.nil_append]

theorem status_in_feedErrorMsg (url : String) (st : Nat) :
    ∃ s t, s ++ (toString st).data ++ t = (feedErrorMsg url st).data := by
  refine ⟨(("Getting PACER RSS feed " : String) ++ url ++ " failed with code ").data,
    ("." : String).data, ?_⟩
  simp only [feedErrorMsg, String.data_append, List.append_assoc]

/-- C5: Match rule: when every feed is newest-first (the documented feed
ordering assumption) and the run completes without error, the entries
handed to the notifier are exactly those whose publication time exceeds
the watermark read at run start and whose case identifier, the final
segment of the link after its last question mark, is on that court's
watchlist, in feed order court by court. -/
theorem scrape_match_rule
    (cases : List (String × List String)) (fetch : String → Feed) (wm : Nat)
    (hok : (scrape cases fetch wm).result = Except.ok ())
    (hsort : ∀ c ∈ cases.map Prod.fst,
      List.Pairwise (fun a b => b.published ≤ a.published) (fetch (feedUrl c)).entries) :
    (scrape cases fetch wm).notified =
      (cases.map Prod.fst).flatMap (fun c =>
        ((fetch (feedUrl c)).entries).filter (fun e =>
          decide (wm < e.published) &&
            (lookupCases cases c).contains (caseId e.link))) := by
  cases hres : (fetchFeeds fetch (cases.map Prod.fst)).2 with
  | error e =>
    rw [scrape_error_parts cases fetch wm e hres] at hok
    simp at hok
  | ok feeds =>
    rw [scrape_ok_parts cases fetch wm feeds hres]
    have hfeeds := fetchFeeds_ok_eq fetch _ feeds hres
    subst hfeeds
    show (runCourts cases wm _).1 = _
    rw [runCourts_notified_append, flatMap_map]
    apply flatMap_congr_mem
    intro c hc
    exact scrapeCourt_fst_filter (lookupCases cases c) wm _ (hsort c hc)

/-- C5 witness: the design scenario, one watched ilnd case, one matching
entry at time 1000 against watermark 0. -/
theorem scrape_match_rule_witness :
    (scrape specCases specFetch 0).result = Except.ok () ∧
    (∀ c ∈ specCases.map Prod.fst,
      List.Pairwise (fun a b => b.published ≤ a.published)
        (specFetch (feedUrl c)).entries) ∧
    (scrape specCases specFetch 0).notified =
      (specCases.map Prod.fst).flatMap (fun c =>
        ((specFetch (feedUrl c)).entries).filter (fun e =>
          decide (0 < e.published) &&
            (lookupCases specCases c).contains (caseId e.link))) :=
  ⟨rfl, by simp [specFetch, specFeed], scrape_match_rule specCases specFetch 0 rfl
    (by simp [specFetch, specFeed])⟩

/-- C8: Fetch failure is fatal: when any watched court's feed reports a
status other than 200, the run ends with the error get_feed raises for
a failing court, whose message contains that court's identifier (inside
the feed URL) and the status code; with distinct court keys no court's
feed is fetched twice within the run. -/
theorem scrape_fetch_failure_fatal
    (cases : List (String × List String)) (fetch : String → Feed) (wm : Nat)
    (hbad : ∃ c ∈ cases.map Prod.fst, (fetch (feedUrl c)).status ≠ 200)
    (hnd : (cases.map Prod.fst).Nodup) :
    (∃ c ∈ cases.map Prod.fst, (fetch (feedUrl c)).status ≠ 200 ∧
      ∃ m, (scrape cases fetch wm).result = Except.error m ∧
        (∃ s t, s ++ c.data ++ t = m.data) ∧
        (∃ s t, s ++ (toString (fetch (feedUrl c)).status).data ++ t = m.data)) ∧
    (scrape cases fetch wm).attempts.Nodup := by
  constructor
  · rcases fetchFeeds_error_of_bad fetch _ hbad with ⟨c, hc, hbadc, herr⟩
    refine ⟨c, hc, hbadc, feedErrorMsg (feedUrl c) (fetch (feedUrl c)).status, ?_,
      court_in_feedErrorMsg c _, status_in_feedErrorMsg (feedUrl c) _⟩
    rw [scrape_error_parts cases fetch wm _ herr]
  · rw [scrape_attempts_eq]
    exact hnd.sublist (fetchFeeds_attempts_sublist fetch _)

/-- C8 witness: a single court answering 404. -/
theorem scrape_fetch_failure_fatal_witness :
    (∃ c ∈ badCases.map Prod.fst, (badFetch (feedUrl c)).status ≠ 200) ∧
    ((∃ c ∈ badCases.map Prod.fst, (badFetch (feedUrl c)).status ≠ 200 ∧
      ∃ m, (scrape badCases badFetch 7).result = Except.error m ∧
        (∃ s t, s ++ c.data ++ t = m.data) ∧
        (∃ s t, s ++ (toString (badFetch (feedUrl c)).status).data ++ t = m.data)) ∧
    (scrape badCases badFetch 7).attempts.Nodup) :=
  ⟨by decide, scrape_fetch_failure_fatal badCases badFetch 7 (by decide) (by decide)⟩

/-- C10: Implicit frame property: all feeds are fetched before the
watermark is read or any entry is processed, so a run in which any
fetch fails ends in error having notified nothing and written nothing:
the persisted watermark is unchanged. -/
theorem scrape_fetch_failure_frame
    (cases : List (String × List String)) (fetch : String → Feed) (wm : Nat)
    (hbad : ∃ c ∈ cases.map Prod.fst, (fetch (feedUrl c)).status ≠ 200) :
    ∃ m, (scrape cases fetch wm).result = Except.error m ∧
      (scrape cases fetch wm).writes = [] ∧
      (scrape cases fetch wm).notified = [] ∧
      finalWm wm (scrape cases fetch wm).writes = wm := by
  rcases fetchFeeds_error_of_bad fetch _ hbad with ⟨c, hc, hbadc, herr⟩
  refine ⟨feedErrorMsg (feedUrl c) (fetch (feedUrl c)).status, ?_, ?_, ?_, ?_⟩
  · rw [scrape_error_parts cases fetch wm _ herr]
  · rw [scrape_error_parts cases fetch wm _ herr]
  · rw [scrape_error_parts cases fetch wm _ herr]
  · rw [scrape_error_parts cases fetch wm _ herr]; rfl

/-- C10 witness. -/
theorem scrape_fetch_failure_frame_witness :
    (∃ c ∈ badCases.map Prod.fst, (badFetch (feedUrl c)).status ≠ 200) ∧
    ∃ m, (scrape badCases badFetch 3).result = Except.error m ∧
      (scrape badCases badFetch 3).writes = [] ∧
      (scrape badCases badFetch 3).notified = [] ∧
      finalWm 3 (scrape badCases badFetch 3).writes = 3 :=
  ⟨by decide, scrape_fetch_failure_frame badCases badFetch 3 (by decide)⟩
